import Mathlib

/-!
Verification of the gesture-interpretation and physics engine of the
DIVERVISION repository.  The relevant TypeScript functions are embedded
shallowly over `ℚ`: floating-point arithmetic is modelled by exact rational
arithmetic, and each occurrence of `Math.sqrt` / `Math.hypot` is replaced by
an explicitly quantified value together with the predicate characterising it
as the non-negative square root (`IsPlanarDist`, `IsSqrtOf`), so that every
definition remains computable.
-/

namespace DiverVision

/-- A 3D point, `{x, y, z}` in the source (`Point3D` in HandScanner.tsx). -/
@[ext]
structure Point3 where
  x : ℚ
  y : ℚ
  z : ℚ
deriving DecidableEq, Repr

/-- Constant `minAlpha` from `smoothPoint` in src/components/HandScanner.tsx (0.2). -/
def minAlpha : ℚ := 2/10

/-- Constant `maxAlpha` from `smoothPoint` in src/components/HandScanner.tsx (0.9). -/
def maxAlpha : ℚ := 9/10

/-- Constant `distThreshold` from `smoothPoint` in src/components/HandScanner.tsx (0.05). -/
def distThreshold : ℚ := 5/100

/-- Predicate: `d` is the planar (x,y) Euclidean distance between `current` and `target`:
the source computes `dist = Math.sqrt(dx*dx + dy*dy)` from the x and y
components only. -/
def IsPlanarDist (current target : Point3) (d : ℚ) : Prop :=
  0 ≤ d ∧ d ^ 2 = (target.x - current.x) ^ 2 + (target.y - current.y) ^ 2

instance (current target : Point3) (d : ℚ) : Decidable (IsPlanarDist current target d) :=
  inferInstanceAs (Decidable (_ ∧ _))

/-- The blend factor computed by `smoothPoint` (HandScanner.tsx lines 147-171):
`alphaFactor = min(dist/distThreshold, 1)` run through the smoothstep
polynomial `a*a*(3-2a)`, then `alpha = minAlpha + (maxAlpha-minAlpha)*alphaFactor`,
overridden to `1.0` when `dt > 0.1`. -/
def smoothAlpha (dist dt : ℚ) : ℚ :=
  if dt > 1/10 then 1
  else
    minAlpha + (maxAlpha - minAlpha) *
      (min (dist / distThreshold) 1 * min (dist / distThreshold) 1 *
        (3 - 2 * min (dist / distThreshold) 1))

/-- Componentwise linear blend `current + (target - current) * alpha`, the
return value of `smoothPoint`. -/
def lerpP (current target : Point3) (alpha : ℚ) : Point3 :=
  { x := current.x + (target.x - current.x) * alpha
  , y := current.y + (target.y - current.y) * alpha
  , z := current.z + (target.z - current.z) * alpha }

/-- Function `smoothPoint` from src/components/HandScanner.tsx, with the distance
`dist` (computed in the source by `Math.sqrt`) passed explicitly; callers of
the theorems below supply `IsPlanarDist current target dist`. -/
def smoothPoint (current target : Point3) (dist dt : ℚ) : Point3 :=
  lerpP current target (smoothAlpha dist dt)

@[simp]
theorem lerpP_x (c t : Point3) (a : ℚ) : (lerpP c t a).x = c.x + (t.x - c.x) * a := rfl

@[simp]
theorem lerpP_y (c t : Point3) (a : ℚ) : (lerpP c t a).y = c.y + (t.y - c.y) * a := rfl

@[simp]
theorem lerpP_z (c t : Point3) (a : ℚ) : (lerpP c t a).z = c.z + (t.z - c.z) * a := rfl

/-- If a linear blend coordinate lands on the left endpoint and the blend
factor is positive, the two endpoint coordinates coincide. -/
theorem lerp_coord_eq_left {cx tx a : ℚ} (ha0 : 0 < a)
    (h : cx + (tx - cx) * a = cx) : tx = cx := by
  have h2 : (tx - cx) * a = 0 := by linear_combination h
  rcases mul_eq_zero.mp h2 with h3 | h3
  · linarith
  · exact absurd h3 (ne_of_gt ha0)

/-- If a linear blend coordinate lands on the right endpoint and the blend
factor is below one, the two endpoint coordinates coincide. -/
theorem lerp_coord_eq_right {cx tx a : ℚ} (ha1 : a < 1)
    (h : cx + (tx - cx) * a = tx) : tx = cx := by
  have h2 : (tx - cx) * (1 - a) = 0 := by linear_combination -h
  rcases mul_eq_zero.mp h2 with h3 | h3
  · linarith
  · exact absurd h3 (by intro hc; linarith)

/-- A proper linear blend of two distinct points returns neither endpoint. -/
theorem lerpP_ne_endpoints (c t : Point3) (a : ℚ) (ha0 : 0 < a) (ha1 : a < 1)
    (hne : c ≠ t) : lerpP c t a ≠ c ∧ lerpP c t a ≠ t := by
  constructor
  · intro h
    apply hne
    have hx := congrArg Point3.x h
    have hy := congrArg Point3.y h
    have hz := congrArg Point3.z h
    simp only [lerpP_x, lerpP_y, lerpP_z] at hx hy hz
    exact Point3.ext (lerp_coord_eq_left ha0 hx).symm
      (lerp_coord_eq_left ha0 hy).symm (lerp_coord_eq_left ha0 hz).symm
  · intro h
    apply hne
    have hx := congrArg Point3.x h
    have hy := congrArg Point3.y h
    have hz := congrArg Point3.z h
    simp only [lerpP_x, lerpP_y, lerpP_z] at hx hy hz
    exact Point3.ext (lerp_coord_eq_right ha1 hx).symm
      (lerp_coord_eq_right ha1 hy).symm (lerp_coord_eq_right ha1 hz).symm

/-- Two points at positive planar distance are distinct. -/
theorem isPlanarDist_ne {c t : Point3} {d : ℚ} (hd : IsPlanarDist c t d)
    (hpos : 0 < d) : c ≠ t := by
  intro h
  rw [h] at hd
  have h2 : d ^ 2 = 0 := by rw [hd.2]; ring
  have h3 : d = 0 := sq_eq_zero_iff.mp h2
  linarith

/-- When the slow-frame override does not fire (`dt ≤ 0.1`) and the planar
distance reaches `distThreshold`, the blend factor saturates at `maxAlpha`. -/
theorem smoothAlpha_saturates {d dt : ℚ} (hth : distThreshold ≤ d)
    (hdt : dt ≤ 1/10) : smoothAlpha d dt = maxAlpha := by
  have h1 : (1 : ℚ) ≤ d / distThreshold := by
    rw [le_div_iff₀ (by norm_num [distThreshold])]
    simpa [distThreshold] using hth
  have hmin : min (d / distThreshold) 1 = 1 := min_eq_right h1
  unfold smoothAlpha
  rw [if_neg (not_lt.mpr hdt), hmin]
  norm_num [minAlpha, maxAlpha]

/-- C1 counterexample: a jump of exactly the threshold distance `0.05` with a
normal inter-frame `dt = 0.01` is NOT snapped to the target: `smoothPoint`
moves only 90% of the way (there is no distance-triggered teleport branch in
the source; `alpha = 1` only when `dt > 0.1`). -/
theorem smoothPoint_snap_counterexample :
    IsPlanarDist ⟨0, 0, 0⟩ ⟨5/100, 0, 0⟩ (5/100) ∧
    distThreshold ≤ 5/100 ∧ (0 : ℚ) < 1/100 ∧
    smoothPoint ⟨0, 0, 0⟩ ⟨5/100, 0, 0⟩ (5/100) (1/100) ≠ ⟨5/100, 0, 0⟩ := by
  refine ⟨⟨by norm_num, by norm_num⟩, by norm_num [distThreshold], by norm_num, ?_⟩
  intro h
  have hx := congrArg Point3.x h
  norm_num [smoothPoint, smoothAlpha, lerpP, minAlpha, maxAlpha, distThreshold] at hx

/-- C1 (amended): for a jump at or above the distance threshold with
`dt ≤ 0.1`, the smoothed output is the 90% blend toward the target
(`alpha = maxAlpha = 0.9`) and in particular never equals the raw target;
an exact snap happens only through the `dt > 0.1` branch. -/
theorem smoothPoint_largeJump (c t : Point3) (d dt : ℚ) (hd : IsPlanarDist c t d)
    (hth : distThreshold ≤ d) (hdt : dt ≤ 1/10) :
    smoothPoint c t d dt = lerpP c t maxAlpha ∧ smoothPoint c t d dt ≠ t := by
  have halpha : smoothAlpha d dt = maxAlpha := smoothAlpha_saturates hth hdt
  have hpos : (0 : ℚ) < d := lt_of_lt_of_le (by norm_num [distThreshold]) hth
  have hne : c ≠ t := isPlanarDist_ne hd hpos
  have hmax0 : (0 : ℚ) < maxAlpha := by norm_num [maxAlpha]
  have hmax1 : maxAlpha < 1 := by norm_num [maxAlpha]
  refine ⟨by rw [smoothPoint, halpha], ?_⟩
  rw [smoothPoint, halpha]
  exact (lerpP_ne_endpoints c t maxAlpha hmax0 hmax1 hne).2

/-- Witness for `smoothPoint_largeJump` at the concrete input of the
counterexample. -/
theorem smoothPoint_largeJump_witness :
    smoothPoint ⟨0, 0, 0⟩ ⟨5/100, 0, 0⟩ (5/100) (1/100)
      = lerpP ⟨0, 0, 0⟩ ⟨5/100, 0, 0⟩ maxAlpha ∧
    smoothPoint ⟨0, 0, 0⟩ ⟨5/100, 0, 0⟩ (5/100) (1/100) ≠ ⟨5/100, 0, 0⟩ :=
  smoothPoint_largeJump ⟨0, 0, 0⟩ ⟨5/100, 0, 0⟩ (5/100) (1/100)
    ⟨by norm_num, by norm_num⟩ (by norm_num [distThreshold]) (by norm_num)

/-- C9 counterexample: for `dt = 0.2 > 0.1` the blend factor is forced to 1
and the output equals the raw target, an endpoint, even though the planar
distance `0.01` is under the threshold and the points are distinct. -/
theorem smoothPoint_between_counterexample :
    IsPlanarDist ⟨0, 0, 0⟩ ⟨1/100, 0, 0⟩ (1/100) ∧
    (1/100 : ℚ) < distThreshold ∧ (0 : ℚ) < 2/10 ∧
    (⟨0, 0, 0⟩ : Point3) ≠ ⟨1/100, 0, 0⟩ ∧
    smoothPoint ⟨0, 0, 0⟩ ⟨1/100, 0, 0⟩ (1/100) (2/10) = ⟨1/100, 0, 0⟩ := by
  refine ⟨⟨by norm_num, by norm_num⟩, by norm_num [distThreshold], by norm_num,
    by norm_num [Point3.ext_iff], ?_⟩
  norm_num [smoothPoint, smoothAlpha, lerpP, Point3.ext_iff]

/-- C9 (amended): for `0 < dt ≤ 0.1` (the range the caller actually produces,
since `detect` clamps `dt` to `0.1`), distinct points at planar distance
below the threshold are blended with a factor strictly inside `(0, 1)`, so
the output lies strictly between the previous smoothed point and the raw
target and equals neither endpoint. -/
theorem smoothPoint_strictly_between (c t : Point3) (d dt : ℚ)
    (hd : IsPlanarDist c t d) (hth : d < distThreshold) (hdt0 : 0 < dt)
    (hdt : dt ≤ 1/10) (hne : c ≠ t) :
    ∃ a : ℚ, 0 < a ∧ a < 1 ∧ smoothPoint c t d dt = lerpP c t a ∧
      smoothPoint c t d dt ≠ c ∧ smoothPoint c t d dt ≠ t := by
  have hu0 : 0 ≤ d / distThreshold := div_nonneg hd.1 (by norm_num [distThreshold])
  have hu1 : d / distThreshold < 1 := by
    rw [div_lt_one (by norm_num [distThreshold])]
    exact hth
  have hmin : min (d / distThreshold) 1 = d / distThreshold := min_eq_left hu1.le
  set u := d / distThreshold with hu_def
  have haval : smoothAlpha d dt = minAlpha + (maxAlpha - minAlpha) *
      (u * u * (3 - 2 * u)) := by
    unfold smoothAlpha
    rw [if_neg (not_lt.mpr hdt), hmin]
  have hF0 : 0 ≤ u * u * (3 - 2 * u) :=
    mul_nonneg (mul_nonneg hu0 hu0) (by linarith)
  have hF1 : u * u * (3 - 2 * u) < 1 := by
    have h1u : 0 < 1 - u := by linarith
    have hq : 0 < (1 - u) * (1 - u) * (1 + 2 * u) :=
      mul_pos (mul_pos h1u h1u) (by linarith)
    nlinarith [hq]
  have ha0 : 0 < smoothAlpha d dt := by
    rw [haval]
    norm_num [minAlpha, maxAlpha]
    nlinarith [hF0]
  have ha1 : smoothAlpha d dt < 1 := by
    rw [haval]
    norm_num [minAlpha, maxAlpha]
    nlinarith [hF1]
  obtain ⟨hnc, hnt⟩ := lerpP_ne_endpoints c t (smoothAlpha d dt) ha0 ha1 hne
  exact ⟨smoothAlpha d dt, ha0, ha1, rfl, hnc, hnt⟩

/-- Witness for `smoothPoint_strictly_between` at a concrete small move. -/
theorem smoothPoint_strictly_between_witness :
    ∃ a : ℚ, 0 < a ∧ a < 1 ∧
      smoothPoint ⟨0, 0, 0⟩ ⟨1/100, 0, 0⟩ (1/100) (1/50)
        = lerpP ⟨0, 0, 0⟩ ⟨1/100, 0, 0⟩ a ∧
      smoothPoint ⟨0, 0, 0⟩ ⟨1/100, 0, 0⟩ (1/100) (1/50) ≠ ⟨0, 0, 0⟩ ∧
      smoothPoint ⟨0, 0, 0⟩ ⟨1/100, 0, 0⟩ (1/100) (1/50) ≠ ⟨1/100, 0, 0⟩ :=
  smoothPoint_strictly_between ⟨0, 0, 0⟩ ⟨1/100, 0, 0⟩ (1/100) (1/50)
    ⟨by norm_num, by norm_num⟩ (by norm_num [distThreshold]) (by norm_num)
    (by norm_num) (by norm_num [Point3.ext_iff])

/-! ## Grab / pinch hysteresis (HandScanner.tsx `detectOneHandGestures`) -/

/-- The JS fallback `dist(wrist, indexMCP) || 0.1`: a zero hand-scale
reference is replaced by `0.1` before any threshold is derived from it. -/
def handScaleOf (d : ℚ) : ℚ := if d = 0 then 1/10 else d

/-- Threshold `GRAB_THRESHOLD = 0.8 * handScale` (Garden branch). -/
def GRAB_THRESHOLD (handScale : ℚ) : ℚ := 8/10 * handScale

/-- Threshold `RELEASE_THRESHOLD = 1.5 * handScale` (Garden branch). -/
def RELEASE_THRESHOLD (handScale : ℚ) : ℚ := 15/10 * handScale

/-- Threshold `PINCH_START` in the Painter branch (0.12). -/
def PINCH_START : ℚ := 12/100

/-- Threshold `PINCH_END` in the Painter branch (0.15). -/
def PINCH_END : ℚ := 15/100

/-- One frame of the Garden `isGrabbing` hysteresis: while grabbing, release
only when the pinch distance rises above `RELEASE_THRESHOLD`; while not
grabbing, engage only when it drops below `GRAB_THRESHOLD`. -/
def gardenGrabStep (isGrabbing : Bool) (pinchDist handScale : ℚ) : Bool :=
  if isGrabbing then
    if pinchDist > RELEASE_THRESHOLD handScale then false else true
  else
    if pinchDist < GRAB_THRESHOLD handScale then true else false

/-- One frame of the Painter `isPinchingRef` hysteresis with the fixed
thresholds `PINCH_START` / `PINCH_END`. -/
def painterPinchStep (isPinching : Bool) (pinchDist : ℚ) : Bool :=
  if isPinching then
    if pinchDist > PINCH_END then false else true
  else
    if pinchDist < PINCH_START then true else false

/-- The hand-lost branch of `detect` forces `isGrabbing` to false before any
gesture logic runs, so a frame without a hand always disengages. -/
def gardenGrabFrame (handPresent : Bool) (g : Bool) (pinchDist handScale : ℚ) : Bool :=
  if handPresent then gardenGrabStep g pinchDist handScale else false

/-- The hand-lost branch of `detect` also resets `isPinchingRef` to false. -/
def painterPinchFrame (handPresent : Bool) (g : Bool) (pinchDist : ℚ) : Bool :=
  if handPresent then painterPinchStep g pinchDist else false

/-- An engaged Garden grab stays engaged across any run of frames whose pinch
distances never rise above the release threshold. -/
theorem gardenGrab_persists (hs : ℚ) (ds : List ℚ)
    (h : ∀ d ∈ ds, d ≤ RELEASE_THRESHOLD hs) :
    ds.foldl (fun g d => gardenGrabStep g d hs) true = true := by
  induction ds with
  | nil => rfl
  | cons d tl ih =>
    have hd := h d (List.mem_cons_self _ _)
    have hstep : gardenGrabStep true d hs = true := by
      unfold gardenGrabStep
      rw [if_pos rfl]
      rw [if_neg (not_lt.mpr hd)]
    rw [List.foldl_cons, hstep]
    exact ih fun x hx => h x (List.mem_cons_of_mem _ hx)

/-- An engaged Painter pinch stays engaged across any run of frames whose
pinch distances never rise above `PINCH_END`. -/
theorem painterPinch_persists (ds : List ℚ) (h : ∀ d ∈ ds, d ≤ PINCH_END) :
    ds.foldl (fun g d => painterPinchStep g d) true = true := by
  induction ds with
  | nil => rfl
  | cons d tl ih =>
    have hd := h d (List.mem_cons_self _ _)
    have hstep : painterPinchStep true d = true := by
      unfold painterPinchStep
      rw [if_pos rfl]
      rw [if_neg (not_lt.mpr hd)]
    rw [List.foldl_cons, hstep]
    exact ih fun x hx => h x (List.mem_cons_of_mem _ hx)

/-- C2: both continuous flags use strict hysteresis.  The engage threshold is
strictly below the release threshold (for any positive hand scale, which the
`|| 0.1` fallback guarantees); engagement happens exactly below the engage
threshold; an engaged flag survives every distance up to and including the
release threshold and disengages exactly above it; a lost hand forces both
flags to false. -/
theorem grab_pinch_hysteresis :
    (∀ hs : ℚ, 0 < hs → GRAB_THRESHOLD hs < RELEASE_THRESHOLD hs) ∧
    (∀ d : ℚ, 0 ≤ d → 0 < handScaleOf d) ∧
    PINCH_START < PINCH_END ∧
    (∀ hs d : ℚ, gardenGrabStep false d hs = true ↔ d < GRAB_THRESHOLD hs) ∧
    (∀ hs d : ℚ, gardenGrabStep true d hs = false ↔ RELEASE_THRESHOLD hs < d) ∧
    (∀ hs : ℚ, ∀ ds : List ℚ, (∀ d ∈ ds, d ≤ RELEASE_THRESHOLD hs) →
      ds.foldl (fun g d => gardenGrabStep g d hs) true = true) ∧
    (∀ d : ℚ, painterPinchStep false d = true ↔ d < PINCH_START) ∧
    (∀ d : ℚ, painterPinchStep true d = false ↔ PINCH_END < d) ∧
    (∀ ds : List ℚ, (∀ d ∈ ds, d ≤ PINCH_END) →
      ds.foldl (fun g d => painterPinchStep g d) true = true) ∧
    (∀ g : Bool, ∀ d hs : ℚ, gardenGrabFrame false g d hs = false) ∧
    (∀ g : Bool, ∀ d : ℚ, painterPinchFrame false g d = false) := by
  refine ⟨?_, ?_, ?_, ?_, ?_, gardenGrab_persists, ?_, ?_, painterPinch_persists,
    ?_, ?_⟩
  · intro hs hhs
    unfold GRAB_THRESHOLD RELEASE_THRESHOLD
    nlinarith
  · intro d hd
    unfold handScaleOf
    by_cases h : d = 0
    · rw [if_pos h]; norm_num
    · rw [if_neg h]; exact lt_of_le_of_ne hd (Ne.symm h)
  · norm_num [PINCH_START, PINCH_END]
  · intro hs d
    by_cases h : d < GRAB_THRESHOLD hs <;> simp [gardenGrabStep, h]
  · intro hs d
    by_cases h : RELEASE_THRESHOLD hs < d <;> simp [gardenGrabStep, h]
  · intro d
    by_cases h : d < PINCH_START <;> simp [painterPinchStep, h]
  · intro d
    by_cases h : PINCH_END < d <;> simp [painterPinchStep, h]
  · intro g d hs
    rfl
  · intro g d
    rfl

/-- Witness for `grab_pinch_hysteresis` at concrete inputs: hand scale `0.2`
gives engage `0.16 <` release `0.3`; an engaged grab survives the distance run
`[0.2, 0.3, 0.25]` (all at or below release); an engaged painter pinch
survives `[0.12, 0.15, 0.13]`. -/
theorem grab_pinch_hysteresis_witness :
    GRAB_THRESHOLD (2/10) < RELEASE_THRESHOLD (2/10) ∧
    ([(2/10 : ℚ), 3/10, 25/100].foldl
      (fun g d => gardenGrabStep g d (2/10)) true = true) ∧
    ([(12/100 : ℚ), 15/100, 13/100].foldl
      (fun g d => painterPinchStep g d) true = true) := by
  obtain ⟨h1, _, _, _, _, h6, _, _, h9, _, _⟩ := grab_pinch_hysteresis
  refine ⟨h1 (2/10) (by norm_num), h6 (2/10) _ ?_, h9 _ ?_⟩
  · intro d hd
    fin_cases hd <;> norm_num [RELEASE_THRESHOLD]
  · intro d hd
    fin_cases hd <;> norm_num [PINCH_END]

/-! ## Discrete-event debounce (HandScanner.tsx cooldown guards) -/

/-- The discrete gesture event types with a cooldown guard in
HandScanner.tsx. -/
inductive GEvent
  | swipe
  | lift
  | ground
  | strum
  | playNote
  | colorChange
  | saveSnapshot
  | plant
deriving DecidableEq, Repr

/-- The per-type cooldown in milliseconds, read off the `now - last > N`
guards: swipe 600 and lift/ground 800 (shared `lastGestureTime`), strum 150
(`lastStrumTime`), play-note 150 (`lastNoteTime`), color-change and save 600
(shared `lastColorPickTime`), plant 1500 (`lastPlantTime`). -/
def cooldownOf : GEvent → ℚ
  | .swipe => 600
  | .lift => 800
  | .ground => 800
  | .strum => 150
  | .playNote => 150
  | .colorChange => 600
  | .saveSnapshot => 600
  | .plant => 1500

/-- One debounce cell over a chronological frame list.  Each frame carries its
timestamp and the event its geometry asked to fire, if any; the cell fires and
updates its `last` ref exactly when `now - last > cooldown`, the literal
source pattern `if (now - last > N) { fire; last = now }`.  Cells that serve
several event types (e.g. `lastGestureTime` for swipe/lift/ground) are the
same cell with a type-dependent cooldown. -/
def debounceRun (cd : GEvent → ℚ) : ℚ → List (ℚ × Option GEvent) → List (ℚ × GEvent)
  | _, [] => []
  | last, (_, none) :: rest => debounceRun cd last rest
  | last, (now, some e) :: rest =>
      if now - last > cd e then (now, e) :: debounceRun cd now rest
      else debounceRun cd last rest

/-- Every event emitted by a debounce cell fires strictly more than its
cooldown after the cell's incoming `last` timestamp. -/
theorem debounceRun_mem_gt (cd : GEvent → ℚ) :
    ∀ (ticks : List (ℚ × Option GEvent)) (last : ℚ),
      (∀ t ∈ ticks, last ≤ t.1) →
      List.Pairwise (fun a b => a.1 ≤ b.1) ticks →
      ∀ p ∈ debounceRun cd last ticks, last + cd p.2 < p.1 := by
  intro ticks
  induction ticks with
  | nil =>
    intro last _ _ p hp
    simp [debounceRun] at hp
  | cons hd tl ih =>
    intro last hle hp p hpmem
    obtain ⟨h1, h2⟩ := List.pairwise_cons.mp hp
    obtain ⟨now, oe⟩ := hd
    have hlenow : last ≤ now := hle _ (List.mem_cons_self _ _)
    have hle2 : ∀ t ∈ tl, last ≤ t.1 := fun t ht => hle t (List.mem_cons_of_mem _ ht)
    cases oe with
    | none =>
      simp only [debounceRun] at hpmem
      exact ih last hle2 h2 p hpmem
    | some e =>
      by_cases hfire : now - last > cd e
      · simp only [debounceRun, if_pos hfire] at hpmem
        rcases List.mem_cons.mp hpmem with heq | hmem
        · subst heq
          simp only
          linarith
        · have h3 := ih now h1 h2 p hmem
          linarith
      · simp only [debounceRun, if_neg hfire] at hpmem
        exact ih last hle2 h2 p hpmem

/-- Emissions of one debounce cell are pairwise separated by more than the
cooldown of the later event. -/
theorem debounceRun_pairwise (cd : GEvent → ℚ) :
    ∀ (ticks : List (ℚ × Option GEvent)) (last : ℚ),
      List.Pairwise (fun a b => a.1 ≤ b.1) ticks →
      (∀ t ∈ ticks, last ≤ t.1) →
      List.Pairwise (fun a b => a.1 + cd b.2 < b.1) (debounceRun cd last ticks) := by
  intro ticks
  induction ticks with
  | nil =>
    intro last _ _
    simp [debounceRun]
  | cons hd tl ih =>
    intro last hp hle
    obtain ⟨h1, h2⟩ := List.pairwise_cons.mp hp
    obtain ⟨now, oe⟩ := hd
    have hle2 : ∀ t ∈ tl, last ≤ t.1 := fun t ht => hle t (List.mem_cons_of_mem _ ht)
    cases oe with
    | none =>
      simp only [debounceRun]
      exact ih last h2 hle2
    | some e =>
      by_cases hfire : now - last > cd e
      · simp only [debounceRun, if_pos hfire]
        refine List.pairwise_cons.mpr ⟨?_, ih now h2 h1⟩
        intro p hp2
        have h3 := debounceRun_mem_gt cd tl now h1 h2 p hp2
        simpa using h3
      · simp only [debounceRun, if_neg hfire]
        exact ih last h2 hle2

/-- C4: for a chronological input stream starting after the initial `last`
timestamp, the events emitted by the debounce cells are pairwise separated by
strictly more than the configured cooldown of the later (hence, for equal
types, of that type); the configured cooldowns are 150 ms for strum and
play-note, 600 ms for swipe/color-change/save, 800 ms for the camera
lift/ground gestures, and 1500 ms for plant. -/
theorem debounce_min_separation (last0 : ℚ) (ticks : List (ℚ × Option GEvent))
    (hsorted : List.Pairwise (fun a b => a.1 ≤ b.1) ticks)
    (hstart : ∀ t ∈ ticks, last0 ≤ t.1) :
    cooldownOf .strum = 150 ∧ cooldownOf .playNote = 150 ∧
    cooldownOf .swipe = 600 ∧ cooldownOf .colorChange = 600 ∧
    cooldownOf .saveSnapshot = 600 ∧ cooldownOf .lift = 800 ∧
    cooldownOf .ground = 800 ∧ cooldownOf .plant = 1500 ∧
    List.Pairwise (fun a b => a.2 = b.2 → cooldownOf a.2 < b.1 - a.1)
      (debounceRun cooldownOf last0 ticks) := by
  refine ⟨rfl, rfl, rfl, rfl, rfl, rfl, rfl, rfl, ?_⟩
  have h := debounceRun_pairwise cooldownOf ticks last0 hsorted hstart
  refine h.imp ?_
  intro a b hab heq
  rw [heq]
  linarith

/-- Witness for `debounce_min_separation` on a concrete fretboard-note burst:
notes requested at t = 200, 300, 360 ms fire only at 200 and 360 (the 300 ms
request is inside the 150 ms cooldown window). -/
theorem debounce_min_separation_witness :
    List.Pairwise (fun a b => a.2 = b.2 → cooldownOf a.2 < b.1 - a.1)
      (debounceRun cooldownOf 0
        [(200, some .playNote), (300, some .playNote), (360, some .playNote)]) := by
  have h := debounce_min_separation 0
      [(200, some .playNote), (300, some .playNote), (360, some .playNote)]
      (by norm_num [List.pairwise_cons])
      (by intro t ht; fin_cases ht <;> norm_num)
  exact h.2.2.2.2.2.2.2.2

/-! ## Painter brush surface (GardenScene.tsx) -/

/-- A brush-stroke splat: position, color and size of one mesh appended to
`brushStrokesRef.current` (rotation is not used by the first-version spawn). -/
structure Splat where
  x : ℚ
  y : ℚ
  z : ℚ
  color : String
  size : ℚ
deriving DecidableEq, Repr

/-- Function `spawnBrushParticle` (GardenScene.tsx lines 163-196) at the level of the
splat list: the new mesh is appended at the back of
`brushStrokesRef.current.children`; if the buffer then holds more than 5000
splats, the first (oldest) child is removed. -/
def spawnBrushParticle (strokes : List Splat) (s : Splat) : List Splat :=
  if (strokes ++ [s]).length > 5000 then (strokes ++ [s]).drop 1
  else strokes ++ [s]

/-- The RESET event effect (GardenScene.tsx lines 199-222) removes every
child of the stroke group. -/
def resetStrokes (_ : List Splat) : List Splat := []

/-- A red splat used as the concrete oldest buffer entry. -/
def splatRed : Splat := ⟨0, 0, -5, "#ef4444", 1⟩

/-- A blue splat used as the concrete buffer filler. -/
def splatBlue : Splat := ⟨1, 0, -5, "#3b82f6", 1⟩

/-- A second blue splat used as the concrete overflowing append. -/
def splatBlue2 : Splat := ⟨2, 0, -5, "#3b82f6", 1⟩

/-- A buffer already holding exactly 5000 splats, the oldest of them red. -/
def fullBuffer : List Splat := splatRed :: List.replicate 4999 splatBlue

/-- C3 counterexample: on a full 5000-splat surface, appending one more splat
evicts the oldest previously-appended splat even though no clear/reset event
occurred. -/
theorem splat_eviction_counterexample :
    fullBuffer.length = 5000 ∧ splatRed ∈ fullBuffer ∧
    splatRed ∉ spawnBrushParticle fullBuffer splatBlue2 := by
  have hlen : fullBuffer.length = 5000 := by
    rw [fullBuffer, List.length_cons, List.length_replicate]
  refine ⟨hlen, List.mem_cons_self _ _, ?_⟩
  have hcond : (fullBuffer ++ [splatBlue2]).length > 5000 := by
    rw [List.length_append, hlen, List.length_singleton]
    norm_num
  rw [spawnBrushParticle, if_pos hcond]
  rw [show fullBuffer ++ [splatBlue2]
      = splatRed :: (List.replicate 4999 splatBlue ++ [splatBlue2]) from by
    rw [fullBuffer, List.cons_append]]
  rw [List.drop_one, List.tail_cons]
  intro hmem
  rcases List.mem_append.mp hmem with h | h
  · have := (List.eq_of_mem_replicate h)
    simp [splatRed, splatBlue] at this
  · simp [splatRed, splatBlue2] at h

/-- C3 (amended): the paint surface is append-only below the 5000-splat
buffer cap: every spawn with fewer than 5000 existing splats is a pure
append and keeps every previously appended splat; at or above the cap a
spawn appends and drops exactly the single oldest splat; the explicit reset
(and only code path that empties the surface) clears it. -/
theorem splat_persistence (strokes : List Splat) (s t : Splat) :
    (strokes.length < 5000 → spawnBrushParticle strokes s = strokes ++ [s]) ∧
    (5000 ≤ strokes.length →
      spawnBrushParticle strokes s = (strokes ++ [s]).drop 1) ∧
    resetStrokes strokes = [] ∧
    (strokes.length < 5000 → t ∈ strokes → t ∈ spawnBrushParticle strokes s) := by
  refine ⟨?_, ?_, rfl, ?_⟩
  · intro h
    rw [spawnBrushParticle, if_neg]
    simp only [List.length_append, List.length_singleton]
    omega
  · intro h
    rw [spawnBrushParticle, if_pos]
    simp only [List.length_append, List.length_singleton]
    omega
  · intro h hmem
    rw [spawnBrushParticle, if_neg]
    · exact List.mem_append_left _ hmem
    · simp only [List.length_append, List.length_singleton]
      omega

/-- Witness for `splat_persistence`: spawning over a one-splat surface keeps
the existing splat. -/
theorem splat_persistence_witness :
    spawnBrushParticle [splatBlue] splatRed = [splatBlue] ++ [splatRed] ∧
    resetStrokes [splatBlue] = [] ∧ splatBlue ∈ spawnBrushParticle [splatBlue] splatRed := by
  obtain ⟨h1, _, h3, h4⟩ := splat_persistence [splatBlue] splatRed splatBlue
  exact ⟨h1 (by norm_num), h3, h4 (by norm_num) (List.mem_cons_self _ _)⟩

/-! ## Painter stroke interpolation (GardenScene.tsx `animate`, Painter branch) -/

/-- Constant `STEP` of the stroke-interpolation block (GardenScene.tsx line 391). -/
def STEP : ℚ := 1/10

/-- Constant `canvasZ = -5`, the fixed drawing-plane depth. -/
def canvasZ : ℚ := -5

/-- Step count `steps = Math.min(50, Math.floor(dist / STEP))` for segment length `d`. -/
def interpSteps (d : ℚ) : ℕ := min 50 ⌊d / STEP⌋.toNat

/-- 2D linear blend used for the intermediate stroke positions. -/
def lerp2 (lp cur : ℚ × ℚ) (t : ℚ) : ℚ × ℚ :=
  (lp.1 + (cur.1 - lp.1) * t, lp.2 + (cur.2 - lp.2) * t)

/-- The positions emitted by `for (let i = 1; i <= steps; i++)` at parameters
`t = i / steps`. -/
def interpPoints (lp cur : ℚ × ℚ) (d : ℚ) : List (ℚ × ℚ) :=
  (List.range (interpSteps d)).map
    (fun (i : ℕ) => lerp2 lp cur (((i : ℚ) + 1) / (interpSteps d : ℚ)))

/-- Predicate: `d` is `Math.hypot` of the 2D displacement from `lp` to `cur`. -/
def IsDist2 (lp cur : ℚ × ℚ) (d : ℚ) : Prop :=
  0 ≤ d ∧ d ^ 2 = (cur.1 - lp.1) ^ 2 + (cur.2 - lp.2) ^ 2

/-- The splat spawned at a given 2D position on the drawing plane. -/
def splatAt (p : ℚ × ℚ) (color : String) (size : ℚ) : Splat :=
  ⟨p.1, p.2, canvasZ, color, size⟩

/-- The gap-filling block of the Painter branch of `animate` (GardenScene.tsx
lines 386-399): when a previous anchor exists, the color is not the eraser
`#000000`, and the segment is longer than `STEP`, the interpolated splats are
spawned in order. -/
def paintStrokes (strokes : List Splat) (lastPos : Option (ℚ × ℚ))
    (cpos : ℚ × ℚ) (color : String) (size : ℚ) (d : ℚ) : List Splat :=
  match lastPos with
  | some lp =>
      if color ≠ "#000000" ∧ d > STEP then
        (interpPoints lp cpos d).foldl
          (fun st p => spawnBrushParticle st (splatAt p color size)) strokes
      else strokes
  | none => strokes

/-- One painter cursor sample processed by the Painter branch of `animate`
(GardenScene.tsx lines 380-412): the gap-filling block runs first, then —
guarded by the same non-eraser test — the endpoint splat is spawned and the
anchor is updated; the eraser color spawns nothing and leaves the anchor as
it was. -/
def processCursor (strokes : List Splat) (lastPos : Option (ℚ × ℚ))
    (cpos : ℚ × ℚ) (color : String) (size : ℚ) (d : ℚ) :
    List Splat × Option (ℚ × ℚ) :=
  if color ≠ "#000000" then
    (spawnBrushParticle (paintStrokes strokes lastPos cpos color size d)
      (splatAt cpos color size), some cpos)
  else (paintStrokes strokes lastPos cpos color size d, lastPos)

/-- Below the buffer cap a spawn is a pure append. -/
theorem spawnBrushParticle_no_evict {strokes : List Splat} {s : Splat}
    (h : strokes.length < 5000) : spawnBrushParticle strokes s = strokes ++ [s] := by
  rw [spawnBrushParticle, if_neg]
  simp only [List.length_append, List.length_singleton]
  omega

/-- Folding spawns over a point list is a pure append while the buffer stays
below the cap. -/
theorem foldl_spawn_append (color : String) (size : ℚ) :
    ∀ (pts : List (ℚ × ℚ)) (strokes : List Splat),
      strokes.length + pts.length ≤ 5000 →
      pts.foldl (fun st p => spawnBrushParticle st (splatAt p color size)) strokes
        = strokes ++ pts.map (fun p => splatAt p color size) := by
  intro pts
  induction pts with
  | nil =>
    intro strokes _
    simp
  | cons p tl ih =>
    intro strokes hlen
    rw [List.length_cons] at hlen
    rw [List.foldl_cons,
      spawnBrushParticle_no_evict (by omega),
      ih _ (by simp only [List.length_append, List.length_singleton]; omega)]
    simp

/-- C10: a paint sample carrying the eraser color `#000000` spawns nothing
and leaves both the paint surface and the stroke-interpolation anchor exactly
as they were. -/
theorem eraser_noop (strokes : List Splat) (lastPos : Option (ℚ × ℚ))
    (cpos : ℚ × ℚ) (size d : ℚ) :
    processCursor strokes lastPos cpos "#000000" size d = (strokes, lastPos) := by
  have h : ¬ (("#000000" : String) ≠ "#000000" ∧ d > STEP) := by
    intro hc
    exact hc.1 rfl
  cases lastPos with
  | none =>
    simp [processCursor, paintStrokes]
  | some lp =>
    simp [processCursor, paintStrokes, h]

/-- Unfolding of `processCursor` in the painting case. -/
theorem processCursor_paint (strokes : List Splat) (lp cpos : ℚ × ℚ)
    (color : String) (size d : ℚ) (hcolor : color ≠ "#000000") (hstep : STEP < d) :
    processCursor strokes (some lp) cpos color size d
      = (spawnBrushParticle
          ((interpPoints lp cpos d).foldl
            (fun st p => spawnBrushParticle st (splatAt p color size)) strokes)
          (splatAt cpos color size), some cpos) := by
  rw [processCursor, if_pos hcolor]
  simp only [paintStrokes]
  rw [if_pos ⟨hcolor, hstep⟩]

/-- A segment longer than `STEP` yields at least one interpolation step. -/
theorem interpSteps_pos {d : ℚ} (h : STEP < d) : 1 ≤ interpSteps d := by
  have h1 : (1 : ℚ) ≤ d / STEP := by
    rw [le_div_iff₀ (by norm_num [STEP])]
    norm_num [STEP] at h ⊢
    linarith
  have h2 : (1 : ℤ) ≤ ⌊d / STEP⌋ := Int.le_floor.mpr (by exact_mod_cast h1)
  have h3 : 1 ≤ ⌊d / STEP⌋.toNat := by omega
  exact le_min (by norm_num) h3

/-- The interpolation spacing `d / steps` is at least `STEP`. -/
theorem interpSteps_mul_le {d : ℚ} (h : STEP < d) : STEP * interpSteps d ≤ d := by
  have hfl : (0 : ℤ) ≤ ⌊d / STEP⌋ := by
    have := interpSteps_pos h
    have h2 : (1 : ℚ) ≤ d / STEP := by
      rw [le_div_iff₀ (by norm_num [STEP])]
      norm_num [STEP] at h ⊢
      linarith
    exact Int.le_floor.mpr (by exact_mod_cast le_trans zero_le_one h2)
  have h1 : interpSteps d ≤ ⌊d / STEP⌋.toNat := min_le_right _ _
  have h2 : ((interpSteps d : ℤ) : ℚ) ≤ (⌊d / STEP⌋ : ℚ) := by
    have : (interpSteps d : ℤ) ≤ ⌊d / STEP⌋ := by omega
    exact_mod_cast this
  have h3 : (⌊d / STEP⌋ : ℚ) ≤ d / STEP := Int.floor_le _
  have h4 : (interpSteps d : ℚ) ≤ d / STEP := by
    calc (interpSteps d : ℚ) = ((interpSteps d : ℤ) : ℚ) := by push_cast; ring
    _ ≤ (⌊d / STEP⌋ : ℚ) := h2
    _ ≤ d / STEP := h3
  have h5 : STEP * (interpSteps d : ℚ) ≤ STEP * (d / STEP) := by
    have hs : (0 : ℚ) < STEP := by norm_num [STEP]
    exact mul_le_mul_of_nonneg_left h4 hs.le
  have h6 : STEP * (d / STEP) = d := by
    rw [mul_comm, div_mul_cancel₀ _ (by norm_num [STEP] : STEP ≠ 0)]
  linarith

/-- When the iteration cap is not hit, the spacing `d / steps` is under
`2 * STEP`. -/
theorem interpSteps_spacing_lt {d : ℚ} (h : STEP < d) (hcap : interpSteps d < 50) :
    d < 2 * STEP * interpSteps d := by
  have hm : interpSteps d = ⌊d / STEP⌋.toNat := by
    rw [interpSteps] at hcap ⊢
    omega
  have hpos := interpSteps_pos h
  have hfl1 : (1 : ℤ) ≤ ⌊d / STEP⌋ := by omega
  have hlt : d / STEP < ⌊d / STEP⌋ + 1 := Int.lt_floor_add_one _
  have hcast : ((⌊d / STEP⌋ : ℤ) : ℚ) = (interpSteps d : ℚ) := by
    rw [hm]
    exact_mod_cast (Int.toNat_of_nonneg (by omega : (0:ℤ) ≤ ⌊d / STEP⌋)).symm
  have hn1 : (1 : ℚ) ≤ (interpSteps d : ℚ) := by exact_mod_cast hpos
  have hlt2 : d / STEP < (interpSteps d : ℚ) + 1 := by
    rw [← hcast]
    exact_mod_cast hlt
  have hlt3 : d / STEP < 2 * (interpSteps d : ℚ) := by linarith
  have hs : (0 : ℚ) < STEP := by norm_num [STEP]
  have h5 : STEP * (d / STEP) < STEP * (2 * (interpSteps d : ℚ)) :=
    mul_lt_mul_of_pos_left hlt3 hs
  have h6 : STEP * (d / STEP) = d := by
    rw [mul_comm, div_mul_cancel₀ _ (by norm_num [STEP] : STEP ≠ 0)]
  have h7 : STEP * (2 * (interpSteps d : ℚ)) = 2 * STEP * interpSteps d := by ring
  linarith

/-- Two interpolation parameters `1/n` apart produce points whose 2D distance
is exactly `d / n`. -/
theorem interp_spacing (lp cur : ℚ × ℚ) (d : ℚ) (hd : IsDist2 lp cur d)
    (n : ℕ) (hpos : 1 ≤ n) (t1 t2 : ℚ) (h12 : t2 = t1 + 1 / (n : ℚ)) :
    IsDist2 (lerp2 lp cur t1) (lerp2 lp cur t2) (d / n) := by
  have hn0 : (0 : ℚ) < (n : ℚ) := by exact_mod_cast hpos
  constructor
  · exact div_nonneg hd.1 hn0.le
  · subst h12
    simp only [lerp2]
    field_simp
    linear_combination hd.2

/-- C6 (amended): a pinching tick that moved farther than `STEP` since the
previous sample emits `steps + 1 ≥ 2` brush marks — the interpolated points
at parameters `i/steps` plus the endpoint — all carrying the active color.
The marks are evenly spaced with common spacing `d / steps`, which is at
least `STEP` (and below `2 * STEP` whenever the 50-iteration cap is not hit),
not at most `STEP` as the claim states. -/
theorem painter_interpolation (lp cpos : ℚ × ℚ) (color : String) (size d : ℚ)
    (hd : IsDist2 lp cpos d) (hstep : STEP < d) (hcolor : color ≠ "#000000") :
    1 ≤ interpSteps d ∧
    (processCursor [] (some lp) cpos color size d).1
      = (interpPoints lp cpos d).map (fun p => splatAt p color size)
        ++ [splatAt cpos color size] ∧
    2 ≤ (processCursor [] (some lp) cpos color size d).1.length ∧
    (∀ s ∈ (processCursor [] (some lp) cpos color size d).1, s.color = color) ∧
    STEP * interpSteps d ≤ d ∧
    (interpSteps d < 50 → d < 2 * STEP * interpSteps d) ∧
    IsDist2 lp (lerp2 lp cpos (1 / (interpSteps d : ℚ))) (d / interpSteps d) ∧
    (∀ i : ℕ, i + 1 < interpSteps d →
      IsDist2 (lerp2 lp cpos (((i : ℚ) + 1) / (interpSteps d : ℚ)))
        (lerp2 lp cpos (((i : ℚ) + 2) / (interpSteps d : ℚ)))
        (d / interpSteps d)) := by
  have hn1 : 1 ≤ interpSteps d := interpSteps_pos hstep
  have hn50 : interpSteps d ≤ 50 := min_le_left _ _
  have hlenpts : (interpPoints lp cpos d).length = interpSteps d := by
    rw [interpPoints, List.length_map, List.length_range]
  have heq : (processCursor [] (some lp) cpos color size d).1
      = (interpPoints lp cpos d).map (fun p => splatAt p color size)
        ++ [splatAt cpos color size] := by
    rw [processCursor_paint [] lp cpos color size d hcolor hstep]
    simp only
    rw [foldl_spawn_append color size (interpPoints lp cpos d) []
      (by simp only [List.length_nil, hlenpts]; omega)]
    rw [spawnBrushParticle_no_evict
      (by simp only [List.nil_append, List.length_map, hlenpts]; omega)]
    simp
  refine ⟨hn1, heq, ?_, ?_, interpSteps_mul_le hstep,
    interpSteps_spacing_lt hstep, ?_, ?_⟩
  · rw [heq]
    simp only [List.length_append, List.length_map, hlenpts, List.length_singleton]
    omega
  · intro s hs
    rw [heq] at hs
    rcases List.mem_append.mp hs with h | h
    · obtain ⟨p, _, hp⟩ := List.mem_map.mp h
      rw [← hp]
      rfl
    · rw [List.mem_singleton.mp h]
      rfl
  · have h0 : lerp2 lp cpos 0 = lp := by
      simp [lerp2]
    have := interp_spacing lp cpos d hd (interpSteps d) hn1 0
      (1 / (interpSteps d : ℚ)) (by ring)
    rwa [h0] at this
  · intro i hi
    exact interp_spacing lp cpos d hd (interpSteps d) hn1
      (((i : ℚ) + 1) / (interpSteps d : ℚ))
      (((i : ℚ) + 2) / (interpSteps d : ℚ))
      (by
        have hn0 : ((interpSteps d : ℚ)) ≠ 0 := by
          have h : (0 : ℚ) < (interpSteps d : ℚ) := by exact_mod_cast hn1
          exact ne_of_gt h
        field_simp
        ring)

/-- Witness for `painter_interpolation`: a vertical move of length `0.25`
(the paint-plane image of the spec's scenario-C stroke) with a red brush
yields two interpolated marks plus the endpoint. -/
theorem painter_interpolation_witness :
    1 ≤ interpSteps (1/4) ∧
    (processCursor [] (some (0, 0)) (0, 1/4) "#ef4444" 1 (1/4)).1
      = (interpPoints (0, 0) (0, 1/4) (1/4)).map (fun p => splatAt p "#ef4444" 1)
        ++ [splatAt (0, 1/4) "#ef4444" 1] ∧
    2 ≤ (processCursor [] (some (0, 0)) (0, 1/4) "#ef4444" 1 (1/4)).1.length ∧
    (∀ s ∈ (processCursor [] (some (0, 0)) (0, 1/4) "#ef4444" 1 (1/4)).1,
      s.color = "#ef4444") ∧
    STEP * interpSteps (1/4) ≤ 1/4 ∧
    (interpSteps (1/4) < 50 → (1/4 : ℚ) < 2 * STEP * interpSteps (1/4)) ∧
    IsDist2 (0, 0) (lerp2 (0, 0) (0, 1/4) (1 / (interpSteps (1/4) : ℚ)))
      ((1/4) / interpSteps (1/4)) ∧
    (∀ i : ℕ, i + 1 < interpSteps (1/4) →
      IsDist2 (lerp2 (0, 0) (0, 1/4) (((i : ℚ) + 1) / (interpSteps (1/4) : ℚ)))
        (lerp2 (0, 0) (0, 1/4) (((i : ℚ) + 2) / (interpSteps (1/4) : ℚ)))
        ((1/4) / interpSteps (1/4))) :=
  painter_interpolation (0, 0) (0, 1/4) "#ef4444" 1 (1/4)
    ⟨by norm_num, by norm_num⟩ (by norm_num [STEP]) (by decide)

/-- C6 counterexample: a pinching tick that moved `0.15 > STEP = 0.1` emits
exactly two brush marks, both at the far endpoint of the segment, i.e. every
mark of the tick lies at distance `0.15` — farther than `STEP` — from the
previous sample's position, so the marks are NOT spaced at most `STEP`
apart. -/
theorem painter_spacing_counterexample :
    IsDist2 (0, 0) (0, 3/20) (3/20) ∧ STEP < 3/20 ∧
    (processCursor [] (some (0, 0)) (0, 3/20) "#ef4444" 1 (3/20)).1
      = [⟨0, 3/20, canvasZ, "#ef4444", 1⟩, ⟨0, 3/20, canvasZ, "#ef4444", 1⟩] ∧
    (∀ s ∈ (processCursor [] (some (0, 0)) (0, 3/20) "#ef4444" 1 (3/20)).1,
      IsDist2 (0, 0) (s.x, s.y) (3/20)) := by
  have hfloor : ⌊(3/20 : ℚ) / STEP⌋ = 1 := by
    rw [show (3/20 : ℚ) / STEP = 3/2 by norm_num [STEP]]
    rw [Int.floor_eq_iff]
    norm_num
  have hsteps : interpSteps (3/20) = 1 := by
    rw [interpSteps, hfloor]
    rfl
  have hpts : interpPoints (0, 0) (0, 3/20) (3/20) = [(0, 3/20)] := by
    rw [interpPoints, hsteps, show List.range 1 = [0] from rfl]
    simp [lerp2]
  have hres : (processCursor [] (some (0, 0)) (0, 3/20) "#ef4444" 1 (3/20)).1
      = [⟨0, 3/20, canvasZ, "#ef4444", 1⟩, ⟨0, 3/20, canvasZ, "#ef4444", 1⟩] := by
    rw [processCursor_paint [] (0, 0) (0, 3/20) "#ef4444" 1 (3/20) (by decide)
      (by norm_num [STEP])]
    simp only [hpts, List.foldl_cons, List.foldl_nil]
    have h1 : spawnBrushParticle ([] : List Splat) (splatAt (0, 3/20) "#ef4444" 1)
        = [splatAt (0, 3/20) "#ef4444" 1] := by
      rw [spawnBrushParticle_no_evict (by simp)]
      rfl
    rw [h1]
    rw [spawnBrushParticle_no_evict (by simp)]
    rfl
  refine ⟨⟨by norm_num, by norm_num⟩, by norm_num [STEP], hres, ?_⟩
  intro s hs
  rw [hres] at hs
  rcases List.mem_cons.mp hs with h | h
  · rw [h]
    exact ⟨by norm_num, by norm_num⟩
  · rw [List.mem_singleton.mp h]
    exact ⟨by norm_num, by norm_num⟩

/-! ## Guitar note synthesis (src/unnamed/part_001 `playSynthNote`) -/

/-- Table `baseFreqs = [82.41, 110.00, 146.83, 196.00, 246.94, 329.63]`, the
open-string base frequencies of the six strings. -/
def baseFreqs : List ℚ := [8241/100, 110, 14683/100, 196, 24694/100, 32963/100]

/-- Lookup `baseFreqs[stringNum - 1] || 440`: JavaScript falls back to 440 when the
indexed entry is `undefined` (out of range) or `0`. -/
def lookupBaseFreq (stringNum : ℕ) : ℚ :=
  match baseFreqs.get? (stringNum - 1) with
  | some v => if v = 0 then 440 else v
  | none => 440

/-- The frequency computed by `playSynthNote(stringNum, fretNum)`:
`baseFreq * Math.pow(2, fretNum / 12)`.  The `GESTURE_PLAY_NOTE` handler
calls `playSynthNote(string, fret)` with the event payload `{fret, string}`.
`Math.pow(2, x)` is irrational for a fractional exponent, so the exponential
is an abstract parameter `pow2`; the code and the claim apply it to the same
argument `fretNum / 12`. -/
def playSynthNoteFreq (pow2 : ℚ → ℚ) (stringNum fretNum : ℕ) : ℚ :=
  lookupBaseFreq stringNum * pow2 ((fretNum : ℚ) / 12)

/-- C5: for every string `s ∈ [1,6]` and fret `f ∈ [1,8]`, the synthesized
frequency is exactly the open-string base frequency of string `s` (the
`s-1`-th table entry, which is nonzero, so the `|| 440` fallback never fires
in range) times the equal-tempered factor applied to `f / 12`. -/
theorem guitar_note_frequency (pow2 : ℚ → ℚ) (s f : ℕ)
    (hs1 : 1 ≤ s) (hs6 : s ≤ 6) :
    playSynthNoteFreq pow2 s f
      = baseFreqs.getD (s - 1) 0 * pow2 ((f : ℚ) / 12) ∧
    baseFreqs.getD (s - 1) 0 ≠ 0 := by
  interval_cases s <;>
    exact ⟨by norm_num [playSynthNoteFreq, lookupBaseFreq, baseFreqs],
      by norm_num [baseFreqs]⟩

/-- Witness for `guitar_note_frequency` at string 2, fret 3 with the identity
in place of the abstract exponential: `110 * (3 / 12)`. -/
theorem guitar_note_frequency_witness :
    playSynthNoteFreq id 2 3 = baseFreqs.getD 1 0 * id ((3 : ℚ) / 12) ∧
    baseFreqs.getD 1 0 ≠ 0 :=
  guitar_note_frequency id 2 3 (by norm_num) (by norm_num)

/-! ## Garden flower physics (src/unnamed/part_001 `spawnFlower` and bounce) -/

/-- The physics fields stored in `group.userData` by `spawnFlower`. -/
structure FlowerPhysics where
  mass : ℚ
  dragCoefficient : ℚ
  restitution : ℚ
deriving DecidableEq, Repr

/-- Predicate: `s` is `Math.sqrt m`, the non-negative square root. -/
def IsSqrtOf (m s : ℚ) : Prop := 0 ≤ s ∧ s ^ 2 = m

/-- Function `spawnFlower`, physics user-data (src/unnamed/part_001 lines 150-162):
`dragCoefficient = 0.96 + 0.03 * (mass / 2.5)` and
`restitution = 0.8 / Math.sqrt(mass)`, with the square root passed
explicitly. -/
def spawnFlowerPhysics (mass sqrtMass : ℚ) : FlowerPhysics :=
  { mass := mass
  , dragCoefficient := 96/100 + 3/100 * (mass / (5/2))
  , restitution := (8/10) / sqrtMass }

/-- The ground-bounce velocity update (src/unnamed/part_001 lines 996-1022):
`f.userData.velocity.y *= -bounce`. -/
def bounceVy (restitution vy : ℚ) : ℚ := -restitution * vy

/-- C7: for flowers of masses `m1 < m2`, the restitution `0.8 / sqrt(mass)`
assigned by `spawnFlower` is strictly larger for the lighter flower, and on
an identical impact speed the lighter flower's reversed vertical speed is
strictly larger. -/
theorem flower_restitution_mass (m1 m2 s1 s2 vy : ℚ)
    (h1 : IsSqrtOf m1 s1) (h2 : IsSqrtOf m2 s2) (hm0 : 0 < m1) (hm : m1 < m2)
    (hvy : vy ≠ 0) :
    (spawnFlowerPhysics m2 s2).restitution
        < (spawnFlowerPhysics m1 s1).restitution ∧
    0 < (spawnFlowerPhysics m2 s2).restitution ∧
    |bounceVy (spawnFlowerPhysics m2 s2).restitution vy|
        < |bounceVy (spawnFlowerPhysics m1 s1).restitution vy| := by
  have hs1 : 0 < s1 := by
    rcases lt_or_eq_of_le h1.1 with h | h
    · exact h
    · exfalso
      rw [← h] at h1
      have := h1.2
      nlinarith
  have hs2 : 0 < s2 := by
    rcases lt_or_eq_of_le h2.1 with h | h
    · exact h
    · exfalso
      rw [← h] at h2
      have := h2.2
      nlinarith
  have hss : s1 < s2 := by
    by_contra hle
    push_neg at hle
    have := pow_le_pow_left₀ h2.1 hle 2
    rw [h1.2, h2.2] at this
    linarith
  have hrest : (8/10 : ℚ) / s2 < (8/10 : ℚ) / s1 :=
    div_lt_div_of_pos_left (by norm_num) hs1 hss
  have hr2pos : (0 : ℚ) < (8/10 : ℚ) / s2 := div_pos (by norm_num) hs2
  refine ⟨hrest, hr2pos, ?_⟩
  have habs : ∀ r : ℚ, 0 < r → |bounceVy r vy| = r * |vy| := by
    intro r hr
    rw [bounceVy, abs_mul, abs_neg, abs_of_pos hr]
  rw [spawnFlowerPhysics, spawnFlowerPhysics] at *
  simp only at *
  rw [habs _ hr2pos, habs _ (div_pos (by norm_num) hs1)]
  exact mul_lt_mul_of_pos_right hrest (abs_pos.mpr hvy)

/-- Witness for `flower_restitution_mass` with masses `9/16 < 1` (square
roots `3/4` and `1`) striking at speed `-1`: restitutions `4/5 < 16/15`. -/
theorem flower_restitution_mass_witness :
    (spawnFlowerPhysics 1 1).restitution
        < (spawnFlowerPhysics (9/16) (3/4)).restitution ∧
    0 < (spawnFlowerPhysics 1 1).restitution ∧
    |bounceVy (spawnFlowerPhysics 1 1).restitution (-1)|
        < |bounceVy (spawnFlowerPhysics (9/16) (3/4)).restitution (-1)| :=
  flower_restitution_mass (9/16) 1 (3/4) 1 (-1)
    ⟨by norm_num, by norm_num⟩ ⟨by norm_num, by norm_num⟩
    (by norm_num) (by norm_num) (by norm_num)

/-! ## Per-frame error handling (HandScanner.tsx `detect` and `loadModel`) -/

/-- A painter cursor sample (`PainterCursor` in the source). -/
structure PainterCursor where
  id : String
  x : ℚ
  y : ℚ
  z : ℚ
  vx : ℚ
  vy : ℚ
  color : String
  size : ℚ
deriving DecidableEq, Repr

/-- The slice of the shared `GardenInteractionState` written by the `detect`
tick that matters to the error-handling claim. -/
structure InteractionState where
  isHovering : Bool
  isGrabbing : Bool
  isPointing : Bool
  isPainting : Bool
  velocityX : ℚ
  velocityY : ℚ
  velocityZ : ℚ
  cursors : List PainterCursor
deriving DecidableEq, Repr

/-- The per-tick refs of the scanner relevant to the claim: the shared
interaction state, the pinch hysteresis flag, the two-hand planting flag and
the five smoothed landmark points (reset to the all-zero sentinel on hand
loss). -/
structure ScannerState where
  inter : InteractionState
  isPinching : Bool
  isPlanting : Bool
  smoothedIndex : Point3
  smoothedMiddle : Point3
  smoothedRing : Point3
  smoothedThumb : Point3
  smoothedPalm : Point3
deriving DecidableEq, Repr

/-- Outcome of the guarded `detectForVideo` call inside `detect`: the inner
`try { results = ... } catch (e) { console.warn(...) }` turns a thrown error
into an undefined `results` (`errorCaught`, which also covers a call that
returns no result); otherwise a result with a possibly empty hand list
arrives.  The content of a hand is irrelevant to this claim, so hands are an
arbitrary payload type. -/
inductive DetectOutcome (H : Type)
  | errorCaught : DetectOutcome H
  | ok : List H → DetectOutcome H

/-- The no-hand branch of `detect` (HandScanner.tsx lines 285-300, taken when
`results?.landmarks` is missing or empty): hovering and all gesture flags are
forced false, the velocity estimate decays by the factor 0.8, the pinch
hysteresis resets and the smoothed landmarks return to the all-zero
sentinel. -/
def noHandUpdate (st : ScannerState) : ScannerState :=
  { st with
    inter := { st.inter with
      isHovering := false
      isGrabbing := false
      isPointing := false
      isPainting := false
      velocityX := st.inter.velocityX * (8/10)
      velocityY := st.inter.velocityY * (8/10)
      velocityZ := st.inter.velocityZ * (8/10) }
    isPinching := false
    smoothedIndex := ⟨0, 0, 0⟩
    smoothedMiddle := ⟨0, 0, 0⟩
    smoothedRing := ⟨0, 0, 0⟩
    smoothedThumb := ⟨0, 0, 0⟩
    smoothedPalm := ⟨0, 0, 0⟩ }

/-- One `detect` tick as a function of the detector outcome.  On a caught
error `results` is undefined, so the primary-hand block takes its no-hand
branch and the whole `if (results?.landmarks)` block — including
`isPlantingRef.current = false` and the atomic `cursors` write — is skipped.
On an empty result the same no-hand branch runs, but the truthy empty
`landmarks` array enters the second block, clears the planting flag and
overwrites `cursors` with the empty frame accumulator.  The hands-present
path is the abstract `process` parameter (its smoothing and gesture logic is
modelled separately above).  The returned flag is the unconditional
`requestAnimationFrame(detect)` re-scheduling that follows the outer
`try/catch`. -/
def detectTick {H : Type} (process : ScannerState → List H → ScannerState)
    (st : ScannerState) : DetectOutcome H → ScannerState × Bool
  | .errorCaught => (noHandUpdate st, true)
  | .ok [] =>
      ({ noHandUpdate st with
         inter := { (noHandUpdate st).inter with cursors := [] }
         isPlanting := false }, true)
  | .ok (h :: hs) => (process st (h :: hs), true)

/-- Function `loadModel` (HandScanner.tsx lines 102-143): an initialization failure is
the only path that sets the persistent user-facing error state. -/
def loadModelError (initFailed : Bool) : Option String :=
  if initFailed then some "Error cargando IA de visión. Refresca la página."
  else none

/-- C8 (amended): a caught per-frame detector error never escapes the tick
and the next tick is scheduled for every outcome; the error frame applies
exactly the no-hand treatment to the interaction flags, velocities, pinch
state and smoothed landmarks; only initialization failure produces the
persistent error state.  Unlike a genuine zero-hand result, however, the
error frame skips the `results?.landmarks` block, so the painter `cursors`
list and the planting flag keep their previous values instead of being
cleared. -/
theorem detect_error_swallowed {H : Type}
    (process : ScannerState → List H → ScannerState) (st : ScannerState) :
    (∀ o : DetectOutcome H, (detectTick process st o).2 = true) ∧
    (detectTick process st .errorCaught).1 = noHandUpdate st ∧
    (detectTick process st (.ok [])).1
      = { noHandUpdate st with
          inter := { (noHandUpdate st).inter with cursors := [] }
          isPlanting := false } ∧
    (noHandUpdate st).inter.isHovering = false ∧
    (noHandUpdate st).inter.isGrabbing = false ∧
    (noHandUpdate st).inter.isPointing = false ∧
    (noHandUpdate st).inter.isPainting = false ∧
    (noHandUpdate st).isPinching = false ∧
    (noHandUpdate st).inter.cursors = st.inter.cursors ∧
    (noHandUpdate st).isPlanting = st.isPlanting ∧
    loadModelError false = none ∧
    (loadModelError true).isSome = true := by
  refine ⟨?_, rfl, rfl, rfl, rfl, rfl, rfl, rfl, rfl, rfl, rfl, rfl⟩
  intro o
  cases o with
  | errorCaught => rfl
  | ok hands =>
    cases hands with
    | nil => rfl
    | cons h hs => rfl

/-- A concrete scanner state carrying one live painter cursor and an active
planting flag. -/
def stWithCursor : ScannerState :=
  { inter :=
    { isHovering := true
    , isGrabbing := false
    , isPointing := false
    , isPainting := true
    , velocityX := 1
    , velocityY := 0
    , velocityZ := 0
    , cursors := [⟨"index", 1/2, 1/2, 0, 0, 0, "#ef4444", 1⟩] }
  , isPinching := true
  , isPlanting := true
  , smoothedIndex := ⟨1/2, 1/2, 0⟩
  , smoothedMiddle := ⟨1/2, 1/2, 0⟩
  , smoothedRing := ⟨1/2, 1/2, 0⟩
  , smoothedThumb := ⟨1/2, 1/2, 0⟩
  , smoothedPalm := ⟨1/2, 1/2, 0⟩ }

/-- C8 counterexample: on a caught detector error the tick is NOT exactly a
zero-hand frame — the stale painter cursor list and the planting flag
survive the error frame, while a genuine empty result clears both. -/
theorem detect_error_counterexample :
    (detectTick (fun s (_ : List Unit) => s) stWithCursor .errorCaught).1.inter.cursors
      = [⟨"index", 1/2, 1/2, 0, 0, 0, "#ef4444", 1⟩] ∧
    (detectTick (fun s (_ : List Unit) => s) stWithCursor (.ok [])).1.inter.cursors
      = [] ∧
    (detectTick (fun s (_ : List Unit) => s) stWithCursor .errorCaught).1.isPlanting
      = true ∧
    (detectTick (fun s (_ : List Unit) => s) stWithCursor (.ok [])).1.isPlanting
      = false ∧
    (detectTick (fun s (_ : List Unit) => s) stWithCursor .errorCaught).1
      ≠ (detectTick (fun s (_ : List Unit) => s) stWithCursor (.ok [])).1 := by
  refine ⟨rfl, rfl, rfl, rfl, ?_⟩
  intro h
  have hc := congrArg (fun s : ScannerState => s.isPlanting) h
  simp [detectTick, noHandUpdate, stWithCursor] at hc

end DiverVision
